import Mathlib

/-!
Verification of the misterm token pipeline (lstm.py, predict.py).

Python strings are embedded as `List Char` (`PyStr`), so that the
whitespace-splitting done by `str.split()` in `create_midi` and the
`'%s %s %s %s'` formatting done in `get_notes` can be reasoned about
directly.  Fallible Python code (IndexError, ValueError, NameError,
ZeroDivisionError) is embedded with `Option`/`Except`.  Calls into
`random`/`numpy.random` are embedded by passing the drawn values (or, for
`numpy.random.randint`, the documented support of the draw) explicitly.
-/

abbrev PyStr := List Char

/-- Models Python's notion of whitespace as used by `str.split()` with no
arguments (space, tab, newline, carriage return, vertical tab, form feed). -/
def isPySpace (c : Char) : Bool :=
  c = ' ' || c = '\t' || c = '\n' || c = '\r' || c = '\x0b' || c = '\x0c'

/-- Accumulator-based worker for `pySplit`: `acc` holds the (reversed)
characters of the field currently being read. -/
def pySplitAux : List Char → List Char → List (List Char)
  | [], acc => if acc.isEmpty then [] else [acc.reverse]
  | c :: cs, acc =>
    if isPySpace c then
      if acc.isEmpty then pySplitAux cs [] else acc.reverse :: pySplitAux cs []
    else pySplitAux cs (c :: acc)

/-- Models Python `s.split()` (no separator argument): split on runs of
whitespace, discarding empty fields.  Used by `create_midi`
(predict.py line 149, `pattern.split()`). -/
def pySplit (s : PyStr) : List PyStr := pySplitAux s []

/-- Models Python `s.split(sep)` for a one-character separator: split at every
occurrence of `sep`, keeping empty fields.  Used by `set_duration`
(predict.py line 129, `d.split('/')`). -/
def pySplitSep (sep : Char) : List Char → List (List Char)
  | [] => [[]]
  | c :: cs =>
    if c = sep then [] :: pySplitSep sep cs
    else
      match pySplitSep sep cs with
      | [] => [[c]]
      | f :: fs => (c :: f) :: fs

/-- Models Python `' '.join(fields)`: concatenate with a single space between
consecutive fields.  Used by `get_notes` (lstm.py line 66) for chord pitches. -/
def pyJoinSpace : List (List Char) → List Char
  | [] => []
  | [f] => f
  | f :: g :: gs => f ++ ' ' :: pyJoinSpace (g :: gs)

/-- A musical event as serialized by `get_notes` (lstm.py lines 56-66):
an instrument id, a non-empty pitch list, a duration literal and an offset
literal, all already rendered to strings by Python `%s` formatting. -/
structure MusicalEvent where
  instrument_id : PyStr
  pitches : List PyStr
  duration : PyStr
  offset : PyStr
deriving DecidableEq, Repr

/-- Models the token serialization `'%s %s %s %s' % (iid, pitches, dur, off)`
of `get_notes` (lstm.py lines 58, 64, 66), where the pitch field is the
space-join of the pitch names (a single pitch for a note, several for a
chord). -/
def encode_token (e : MusicalEvent) : PyStr :=
  e.instrument_id ++ ' ' :: pyJoinSpace e.pitches ++ ' ' :: e.duration ++ ' ' :: e.offset

/-- Models the token parse of `create_midi` (predict.py lines 149-150):
`parts = pattern.split()` followed by the unpacking
`(parts[0], parts[1:-2], parts[-2], parts[-1])`.  Python raises IndexError
when `parts` has fewer than two fields (`parts[0]` needs one, `parts[-2]`
needs two), embedded here as `none`. -/
def decode_token (token : PyStr) :
    Option (PyStr × List PyStr × PyStr × PyStr) :=
  if 2 ≤ (pySplit token).length then
    some ((pySplit token).getD 0 [],
          (((pySplit token).drop 1).take ((pySplit token).length - 3),
           (pySplit token).getD ((pySplit token).length - 2) [],
           (pySplit token).getD ((pySplit token).length - 1) []))
  else
    none

/-- Boolean lexicographic order on embedded Python strings (code-point order,
as used by Python `sorted` on `str`). -/
def pyStrLe : PyStr → PyStr → Bool
  | [], _ => true
  | _ :: _, [] => false
  | a :: as, b :: bs => if a < b then true else if b < a then false else pyStrLe as bs

/-- Insert into a `pyStrLe`-sorted list, keeping it sorted. -/
def insertSorted (s : PyStr) : List PyStr → List PyStr
  | [] => [s]
  | t :: ts => if pyStrLe s t then s :: t :: ts else t :: insertSorted s ts

/-- Models Python `sorted(set(items))` on a list of strings: deduplicate, then
sort ascending.  This is `pitchnames = sorted(set(item for item in notes))`
(lstm.py line 78, predict.py line 36), the vocabulary construction.  The
source has no failure path here: the empty input yields the empty
vocabulary. -/
def build_vocabulary (notes : List PyStr) : List PyStr :=
  notes.dedup.foldr insertSorted []

/-- Models `n_vocab = len(set(notes))` (lstm.py line 23, predict.py line 38). -/
def n_vocab (notes : List PyStr) : Nat :=
  notes.dedup.length

/-- Models the windowing loop of `prepare_sequences` (lstm.py lines 87-93,
predict.py lines 53-59) on the token-id stream: for
`i in range(0, len(ids) - L)` produce the pair
`(ids[i:i+L], ids[i+L])` of one window and its one-step-ahead target. -/
def make_training_samples (ids : List Nat) (L : Nat) : List (List Nat × Nat) :=
  (List.range (ids.length - L)).map fun i => ((ids.drop i).take L, ids.getD (i + L) 0)

/-- Models the generation loop of `generate_notes` (predict.py lines 106-117),
with the loop bound `N` a parameter (the source fixes `N = 500`) and the
model query embedded as the function `model_argmax` from the current window
to the arg-max index of the predicted distribution
(`index = numpy.argmax(model.predict(...))`).  Each step appends
`int_to_note[index]` to the output, then slides the window:
`pattern.append(index); pattern = pattern[1:len(pattern)]`.  The result is
`(prediction_output, trace)` where `trace` records the window passed to the
model at each step. -/
def generate_notes (model_argmax : List Nat → Nat) (int_to_note : Nat → PyStr) :
    Nat → List Nat → List PyStr × List (List Nat)
  | 0, _ => ([], [])
  | n + 1, pattern =>
    let index := model_argmax pattern
    let result := int_to_note index
    let rest := generate_notes model_argmax int_to_note n ((pattern ++ [index]).drop 1)
    (result :: rest.1, pattern :: rest.2)

/-- Errors that the body of `set_duration` (predict.py lines 121-134) can
raise past its own `try`: a ValueError from `int()`, a ZeroDivisionError
from `/`, and the NameError from the reference to the module name
`duration`, which predict.py never imports. -/
inductive DurErr
  | valueError
  | zeroDivisionError
  | nameError
deriving DecidableEq, Repr

deriving instance DecidableEq for Except

/-- Character is an ASCII decimal digit. -/
def isDigit (c : Char) : Bool := '0' ≤ c && c ≤ '9'

/-- Numeric value of a digit string (most significant first). -/
def natOfDigits (ds : List Char) : Nat :=
  ds.foldl (fun n c => 10 * n + (c.toNat - 48)) 0

/-- Models Python `int(s)` on a field with no surrounding whitespace: an
optional sign followed by a non-empty digit string; anything else raises
ValueError (`none`). -/
def pyInt? (s : PyStr) : Option Int :=
  match s with
  | '+' :: t => if t ≠ [] && t.all isDigit then some (natOfDigits t) else none
  | '-' :: t => if t ≠ [] && t.all isDigit then some (-(natOfDigits t : Int)) else none
  | t => if t ≠ [] && t.all isDigit then some (natOfDigits t) else none

/-- Mantissa-and-exponent part of `pyFloat?`, after the sign: Python's float
grammar `digitpart [. [digitpart]] [exp] | . digitpart [exp]` with
`exp = (e|E) [sign] digitpart`, evaluated exactly in `ℚ`. -/
def pyFloatMag? (s : List Char) : Option ℚ :=
  let ip := s.takeWhile isDigit
  let r1 := s.dropWhile isDigit
  let fracAndRest : Option (List Char × List Char) :=
    match r1 with
    | '.' :: t => some (t.takeWhile isDigit, t.dropWhile isDigit)
    | t => some ([], t)
  match fracAndRest with
  | none => none
  | some (fp, r2) =>
    if ip = [] && fp = [] then none
    else
      let mant : ℚ := (natOfDigits ip : ℚ) + (natOfDigits fp : ℚ) / ((10 : ℚ) ^ fp.length)
      match r2 with
      | [] => some mant
      | e :: t =>
        if e = 'e' || e = 'E' then
          match pyInt? t with
          | some k => some (mant * (10 : ℚ) ^ k)
          | none => none
        else none

/-- Models Python `float(s)` on a field with no surrounding whitespace,
restricted to finite literals without digit-group underscores (the
non-finite literals `inf`/`nan` have no counterpart in `ℚ`, and neither
form arises from the duration fields the pipeline serializes).  `none` is
Python's ValueError. -/
def pyFloat? (s : PyStr) : Option ℚ :=
  match s with
  | '+' :: t => pyFloatMag? t
  | '-' :: t => (pyFloatMag? t).map (fun q => -q)
  | t => pyFloatMag? t

/-- Models `set_duration` (predict.py lines 121-134), projected to the
quarter-length value it assigns: first `float(d)` is tried; on ValueError,
if `'/' in d` the literal is split on `'/'` and `int(q[0]) / int(q[-1])` is
computed (true division); otherwise the code executes
`duration.Duration(d)`, which raises NameError unconditionally because the
module name `duration` is never imported in predict.py, so the
duration-by-name fallback is unreachable. -/
def set_duration_ql (d : PyStr) : Except DurErr ℚ :=
  match pyFloat? d with
  | some v => Except.ok v
  | none =>
    if d.contains '/' then
      let q := pySplitSep '/' d
      match pyInt? (q.headD []), pyInt? (q.getLastD []) with
      | some a, some b =>
        if b = 0 then Except.error DurErr.zeroDivisionError
        else Except.ok ((a : ℚ) / (b : ℚ))
      | _, _ => Except.error DurErr.valueError
    else
      Except.error DurErr.nameError

/-- Models `get_random_instrument` (predict.py lines 136-138):
`all_instruments[randint(0, len(all_instruments)-1)]()`.  The catalog
(`instrument.Instrument.__subclasses__()`, external library data) and the
value drawn by `randint` are passed explicitly; `randint(0, len-1)` is
inclusive on both ends, so every index of the catalog is a possible draw,
embedded as reduction of the draw modulo the catalog length. -/
def get_random_instrument (catalog : List PyStr) (r : Nat) : PyStr :=
  catalog.getD (r % catalog.length) []

/-- Models the instrument resolution of `create_midi` (predict.py lines
167-174): `instrument.instrumentFromMidiProgram(int(instrument_key))` inside
`try`, with `get_random_instrument()` as the `except` handler (after
printing a warning).  The library lookup is the parameter `lookup`
(`none` meaning any exception, including a failing `int()`). -/
def resolve_instrument (lookup : PyStr → Option PyStr) (catalog : List PyStr)
    (r : Nat) (iid : PyStr) : PyStr :=
  match lookup iid with
  | some i => i
  | none => get_random_instrument catalog r

/-- An element appended to a part by `create_midi` (predict.py lines 155-164):
a chord or a note, carrying the quarter-length assigned by `set_duration`
and the raw offset field (`n.offset = o` stores the split field). -/
inductive MidiElem
  | chordElem (pitches : List PyStr) (ql : ℚ) (off : PyStr)
  | noteElem (pitch : PyStr) (ql : ℚ) (off : PyStr)
deriving DecidableEq, Repr

/-- An exception escaping one iteration of the token loop of `create_midi`:
the IndexError from the field unpacking, or an error from
`set_duration`. -/
inductive MidiErr
  | indexError
  | durErr (e : DurErr)
deriving DecidableEq, Repr

/-- Models `if (_instrument not in instruments.keys()): instruments[_instrument] = []`
(predict.py lines 152-153); the dict is embedded as an association list in
insertion order, as Python dicts preserve it. -/
def register_instrument (instruments : List (PyStr × List MidiElem)) (iid : PyStr) :
    List (PyStr × List MidiElem) :=
  if instruments.any (fun kv => kv.1 = iid) then instruments
  else instruments ++ [(iid, [])]

/-- Models `instruments[_instrument].append(el)` on the association list. -/
def append_elem (instruments : List (PyStr × List MidiElem)) (iid : PyStr)
    (el : MidiElem) : List (PyStr × List MidiElem) :=
  instruments.map (fun kv => if kv.1 = iid then (kv.1, kv.2 ++ [el]) else kv)

/-- Models one iteration of the token loop of `create_midi` (predict.py lines
148-164): split the token and unpack the fields, register the instrument
key, then build a chord when the pitch slice has more than one element, a
note when it has exactly one, and nothing at all when it is empty.
Pitch-name validation done inside the external `chord.Chord`/`note.Note`
constructors is not modelled. -/
def create_midi_step (instruments : List (PyStr × List MidiElem)) (pattern : PyStr) :
    Except MidiErr (List (PyStr × List MidiElem)) :=
  match decode_token pattern with
  | none => Except.error MidiErr.indexError
  | some (iid, notes, dur, off) =>
    let instruments := register_instrument instruments iid
    if 1 < notes.length then
      match set_duration_ql dur with
      | Except.ok ql => Except.ok (append_elem instruments iid (MidiElem.chordElem notes ql off))
      | Except.error e => Except.error (MidiErr.durErr e)
    else if notes.length = 1 then
      match set_duration_ql dur with
      | Except.ok ql => Except.ok (append_elem instruments iid (MidiElem.noteElem (notes.headD []) ql off))
      | Except.error e => Except.error (MidiErr.durErr e)
    else
      Except.ok instruments

/-- One element of a music21 `Part` as traversed by `get_notes` (lstm.py
lines 62-66): a note, a chord, or anything else (skipped). -/
inductive PartElement
  | noteEl (pitch dur off : PyStr)
  | chordEl (pitches : List PyStr) (dur off : PyStr)
  | otherEl
deriving DecidableEq, Repr

/-- One element of the iterable `notes_to_parse` traversed by `get_notes`
(lstm.py lines 50-66): a top-level `note.Note`, a `stream.Part` with an
optional declared instrument program (the outcome of
`getInstrument(returnDefault=False)` when its `instrumentName` is not
`None`, rendered by `%s`), or anything else (no isinstance branch
matches). -/
inductive TopElement
  | flatNote (pitch dur off : PyStr)
  | partEl (declared : Option PyStr) (elems : List PartElement)
  | otherTop
deriving DecidableEq, Repr

/-- Tokens emitted for the elements of one part with resolved instrument id
`iid` (lstm.py lines 62-66). -/
def part_tokens (iid : PyStr) : List PartElement → List PyStr
  | [] => []
  | PartElement.noteEl p d o :: rest => encode_token ⟨iid, [p], d, o⟩ :: part_tokens iid rest
  | PartElement.chordEl ps d o :: rest => encode_token ⟨iid, ps, d, o⟩ :: part_tokens iid rest
  | PartElement.otherEl :: rest => part_tokens iid rest

/-- Models the token-emission loop of `get_notes` (lstm.py lines 50-66) over
one parsed document.  For every top-level element the loop first draws
`iid = ri[randint(0, len(ri)-1)]().midiProgram` (lines 52-54) from the
instrument-subclass catalog; the draws are passed explicitly in `rng`, one
per top-level element.  A top-level note uses that random id; a part uses
its declared program when present and the random id otherwise; other
elements emit nothing. -/
def get_notes_doc (catalog : List PyStr) : List Nat → List TopElement → List PyStr
  | _, [] => []
  | rng, el :: rest =>
    let iid := get_random_instrument catalog (rng.headD 0)
    let toks :=
      match el with
      | TopElement.flatNote p d o => [encode_token ⟨iid, [p], d, o⟩]
      | TopElement.partEl declared elems =>
        part_tokens (match declared with | some prog => prog | none => iid) elems
      | TopElement.otherTop => []
    toks ++ get_notes_doc catalog (rng.drop 1) rest

/-- Documented support of `numpy.random.randint(low, high)`: the draw is
uniform over `[low, high)`, the upper bound exclusive. -/
def numpy_randint_support (low high : Nat) : List Nat :=
  List.range' low (high - low)

/-- Models the possible values of
`start = numpy.random.randint(0, len(network_input)-1)` (predict.py line
98), the seed-window start position chosen by `generate_notes`. -/
def seed_start_support (network_input : List (List Nat)) : List Nat :=
  numpy_randint_support 0 (network_input.length - 1)

/-- A whitespace-free, non-empty field: the shape of every `%s`-rendered
component (instrument program, pitch name, duration literal, offset
literal) of a token within the supported grammar. -/
def goodField (f : PyStr) : Prop := f ≠ [] ∧ ∀ c ∈ f, isPySpace c = false

instance (f : PyStr) : Decidable (goodField f) := by
  unfold goodField; infer_instance

theorem pySplitAux_append_nonspace (f : List Char) :
    ∀ (t acc : List Char), (∀ c ∈ f, isPySpace c = false) →
      pySplitAux (f ++ t) acc = pySplitAux t (f.reverse ++ acc) := by
  induction f with
  | nil => intro t acc _; simp
  | cons c r ih =>
    intro t acc h
    have hc : isPySpace c = false := h c (by simp)
    have step : pySplitAux ((c :: r) ++ t) acc = pySplitAux (r ++ t) (c :: acc) := by
      show pySplitAux (c :: (r ++ t)) acc = pySplitAux (r ++ t) (c :: acc)
      simp [pySplitAux, hc]
    rw [step, ih t (c :: acc) (fun x hx => h x (by simp [hx]))]
    simp

theorem pySplitAux_space (t acc : List Char) (h : acc ≠ []) :
    pySplitAux (' ' :: t) acc = acc.reverse :: pySplitAux t [] := by
  simp only [pySplitAux]
  rw [if_pos (by simp [isPySpace]), if_neg (by simpa using h)]

theorem pySplitAux_nil (acc : List Char) (h : acc ≠ []) :
    pySplitAux [] acc = [acc.reverse] := by
  simp only [pySplitAux]
  rw [if_neg (by simpa using h)]

theorem pySplit_join (fs : List PyStr) (h : ∀ f ∈ fs, goodField f) :
    pySplit (pyJoinSpace fs) = fs := by
  induction fs with
  | nil => rfl
  | cons f gs ih =>
    match gs with
    | [] =>
      obtain ⟨hne, hns⟩ := h f (by simp)
      show pySplitAux (pyJoinSpace [f]) [] = [f]
      have : pyJoinSpace [f] = f ++ [] := by simp [pyJoinSpace]
      rw [this, pySplitAux_append_nonspace f [] [] hns,
          pySplitAux_nil _ (by simpa using hne)]
      simp
    | g :: gs' =>
      obtain ⟨hne, hns⟩ := h f (by simp)
      show pySplitAux (pyJoinSpace (f :: g :: gs')) [] = f :: g :: gs'
      have hj : pyJoinSpace (f :: g :: gs') = f ++ ' ' :: pyJoinSpace (g :: gs') := rfl
      rw [hj, pySplitAux_append_nonspace f _ [] hns,
          pySplitAux_space _ _ (by simpa using hne)]
      have := ih (fun x hx => h x (by simp [hx]))
      simp only [pySplit] at this
      simp [this]

theorem pyJoinSpace_append_two (ps : List PyStr) (d o : PyStr) (h : ps ≠ []) :
    pyJoinSpace (ps ++ [d, o]) = pyJoinSpace ps ++ ' ' :: d ++ ' ' :: o := by
  induction ps with
  | nil => exact absurd rfl h
  | cons p qs ih =>
    match qs with
    | [] => simp [pyJoinSpace]
    | q :: qs' =>
      have hq : q :: qs' ≠ [] := by simp
      show pyJoinSpace (p :: ((q :: qs') ++ [d, o])) =
        pyJoinSpace (p :: q :: qs') ++ ' ' :: d ++ ' ' :: o
      have h1 : pyJoinSpace (p :: ((q :: qs') ++ [d, o])) =
          p ++ ' ' :: pyJoinSpace ((q :: qs') ++ [d, o]) := rfl
      rw [h1, ih hq]
      simp [pyJoinSpace]

theorem encode_token_eq_join (e : MusicalEvent) (h : e.pitches ≠ []) :
    encode_token e = pyJoinSpace (e.instrument_id :: (e.pitches ++ [e.duration, e.offset])) := by
  have h2 : e.pitches ++ [e.duration, e.offset] ≠ [] := by
    cases e.pitches <;> simp
  have h3 : pyJoinSpace (e.instrument_id :: (e.pitches ++ [e.duration, e.offset])) =
      e.instrument_id ++ ' ' :: pyJoinSpace (e.pitches ++ [e.duration, e.offset]) := by
    cases hp : e.pitches ++ [e.duration, e.offset] with
    | nil => exact absurd hp h2
    | cons x xs => rfl
  rw [h3, pyJoinSpace_append_two e.pitches e.duration e.offset h]
  simp [encode_token]

/-- C1: for every MusicalEvent within the supported grammar (non-empty pitch
list; every rendered field non-empty and whitespace-free, as `%s` rendering
of instrument programs, pitch names, quarter-length literals and offsets
produces), decoding the token produced by encoding the event — first field
instrument, last two fields duration and offset, middle fields pitches —
recovers exactly the `(instrument_id, pitches, duration, offset)` tuple. -/
theorem C1_token_round_trip (e : MusicalEvent)
    (hne : e.pitches ≠ [])
    (hiid : goodField e.instrument_id)
    (hp : ∀ p ∈ e.pitches, goodField p)
    (hdur : goodField e.duration)
    (hoff : goodField e.offset) :
    decode_token (encode_token e) =
      some (e.instrument_id, e.pitches, e.duration, e.offset) := by
  have hsplit : pySplit (encode_token e) =
      e.instrument_id :: (e.pitches ++ [e.duration, e.offset]) := by
    rw [encode_token_eq_join e hne]
    apply pySplit_join
    intro f hf
    simp only [List.mem_cons, List.mem_append, List.mem_cons,
      List.not_mem_nil, or_false] at hf
    rcases hf with h | h | h | h
    · subst h; exact hiid
    · exact hp f h
    · subst h; exact hdur
    · subst h; exact hoff
  have hlen : (e.instrument_id :: (e.pitches ++ [e.duration, e.offset])).length
      = e.pitches.length + 3 := by
    simp [List.length_append]
  have hmid : ((e.instrument_id :: (e.pitches ++ [e.duration, e.offset])).drop 1).take
      (e.pitches.length + 3 - 3) = e.pitches := by
    have h3 : e.pitches.length + 3 - 3 = e.pitches.length := by omega
    rw [h3]
    show (e.pitches ++ [e.duration, e.offset]).take e.pitches.length = e.pitches
    exact List.take_left e.pitches [e.duration, e.offset]
  have hdur2 : (e.instrument_id :: (e.pitches ++ [e.duration, e.offset])).getD
      (e.pitches.length + 3 - 2) [] = e.duration := by
    have h2 : e.pitches.length + 3 - 2 = e.pitches.length + 1 := by omega
    rw [h2]
    show (e.pitches ++ [e.duration, e.offset]).getD e.pitches.length [] = e.duration
    rw [List.getD_eq_getElem?_getD, List.getElem?_append_right (le_refl _)]
    simp
  have hoff2 : (e.instrument_id :: (e.pitches ++ [e.duration, e.offset])).getD
      (e.pitches.length + 3 - 1) [] = e.offset := by
    have h1 : e.pitches.length + 3 - 1 = e.pitches.length + 2 := by omega
    rw [h1]
    show (e.pitches ++ [e.duration, e.offset]).getD (e.pitches.length + 1) [] = e.offset
    rw [List.getD_eq_getElem?_getD,
        List.getElem?_append_right (by omega : e.pitches.length ≤ e.pitches.length + 1)]
    have : e.pitches.length + 1 - e.pitches.length = 1 := by omega
    rw [this]
    simp
  simp only [decode_token, hsplit, hlen]
  rw [if_pos (by omega)]
  rw [hmid, hdur2, hoff2]
  rfl

/-- Witness for C1 at the concrete chord event behind the token
`"12 C4 E4 G4 1/3 2.0"`. -/
theorem C1_token_round_trip_witness :
    decode_token (encode_token ⟨['1', '2'], [['C', '4'], ['E', '4'], ['G', '4']],
        ['1', '/', '3'], ['2', '.', '0']⟩) =
      some (['1', '2'], [['C', '4'], ['E', '4'], ['G', '4']],
        ['1', '/', '3'], ['2', '.', '0']) :=
  C1_token_round_trip
    ⟨['1', '2'], [['C', '4'], ['E', '4'], ['G', '4']], ['1', '/', '3'], ['2', '.', '0']⟩
    (by decide) (by decide) (by decide) (by decide) (by decide)

/-- C3: on a token-id stream of length `M` with window length `L < M`, the
windowing loop yields exactly `M - L` training samples; sample `i` is the
contiguous slice `ids[i:i+L]` paired with `ids[i+L]`, and window and target
together form the contiguous slice `ids[i:i+L+1]`, so the target is the
element immediately following the window. -/
theorem C3_windowing_completeness (ids : List Nat) (L : Nat) (hL : L < ids.length) :
    (make_training_samples ids L).length = ids.length - L ∧
    ∀ i, i < ids.length - L →
      (make_training_samples ids L).getD i ([], 0) =
        ((ids.drop i).take L, ids.getD (i + L) 0) ∧
      ((ids.drop i).take L) ++ [ids.getD (i + L) 0] = (ids.drop i).take (L + 1) := by
  constructor
  · simp [make_training_samples]
  · intro i hi
    constructor
    · rw [List.getD_eq_getElem?_getD, make_training_samples,
          List.getElem?_map, List.getElem?_range hi]
      rfl
    · have hiL : i + L < ids.length := by omega
      have h1 : (ids.drop i)[L]? = some (ids.getD (i + L) 0) := by
        rw [List.getElem?_drop ids i L, List.getElem?_eq_getElem hiL,
            List.getD_eq_getElem?_getD, List.getElem?_eq_getElem hiL]
        rfl
      rw [List.take_succ, h1]
      rfl

/-- Closed witness for C3 on the 5-element stream `[9,8,7,6,5]` with window
length 2, checking the second sample. -/
theorem C3_windowing_completeness_witness :
    (make_training_samples [9, 8, 7, 6, 5] 2).length = 3 ∧
    (make_training_samples [9, 8, 7, 6, 5] 2).getD 1 ([], 0) = ([8, 7], 6) ∧
    [8, 7] ++ [6] = ([9, 8, 7, 6, 5].drop 1).take 3 := by
  have h := C3_windowing_completeness [9, 8, 7, 6, 5] 2 (by decide)
  refine ⟨h.1, ?_, ?_⟩
  · exact (h.2 1 (by decide)).1
  · exact (h.2 1 (by decide)).2

/-- C9 counterexample: the spec's example is off — the stream
`[5,2,7,2,5,9,2,7]` with window length 3 does not produce the four claimed
samples; there are five samples, and the sample with window `[2,5,9]` has
target `2` (the element `ids[6]`), not `7`. -/
theorem C9_counterexample :
    make_training_samples [5, 2, 7, 2, 5, 9, 2, 7] 3 ≠
      [([5, 2, 7], 2), ([2, 7, 2], 5), ([7, 2, 5], 9), ([2, 5, 9], 7)] := by
  decide

/-- C9 (amended): on the corpus token-id stream `[5,2,7,2,5,9,2,7]` with
window length 3 the windowing loop produces exactly the five samples
`([5,2,7],2), ([2,7,2],5), ([7,2,5],9), ([2,5,9],2), ([5,9,2],7)` and no
others. -/
theorem C9_example_scenario :
    make_training_samples [5, 2, 7, 2, 5, 9, 2, 7] 3 =
      [([5, 2, 7], 2), ([2, 7, 2], 5), ([7, 2, 5], 9), ([2, 5, 9], 2), ([5, 9, 2], 7)] := by
  decide

/-- C2: for every seed window of length `L` and every step count `N`, the
generation loop performs exactly `N` transition steps with no early
stopping — the output has exactly `N` elements and the model is queried
exactly `N` times — and every window passed to the model has length exactly
`L` (one id appended, the oldest dropped, per step). -/
theorem C2_generator_invariant (model_argmax : List Nat → Nat) (int_to_note : Nat → PyStr)
    (L N : Nat) (pattern : List Nat) (hp : pattern.length = L) :
    (generate_notes model_argmax int_to_note N pattern).1.length = N ∧
    (generate_notes model_argmax int_to_note N pattern).2.length = N ∧
    ∀ w ∈ (generate_notes model_argmax int_to_note N pattern).2, w.length = L := by
  induction N generalizing pattern with
  | zero => simp [generate_notes]
  | succ n ih =>
    have hlen : ((pattern ++ [model_argmax pattern]).drop 1).length = L := by
      simp [hp]
    obtain ⟨h1, h2, h3⟩ := ih ((pattern ++ [model_argmax pattern]).drop 1) hlen
    refine ⟨by simpa [generate_notes] using h1, by simpa [generate_notes] using h2, ?_⟩
    intro w hw
    simp only [generate_notes] at hw
    rcases List.mem_cons.mp hw with h | h
    · rw [h]; exact hp
    · exact h3 w h

/-- Closed witness for C2: two steps from the seed window `[1, 2, 3]` under a
constant arg-max model. -/
theorem C2_generator_invariant_witness :
    (generate_notes (fun _ => 0) (fun _ => []) 2 [1, 2, 3]).1.length = 2 ∧
    (generate_notes (fun _ => 0) (fun _ => []) 2 [1, 2, 3]).2.length = 2 ∧
    ∀ w ∈ (generate_notes (fun _ => 0) (fun _ => []) 2 [1, 2, 3]).2, w.length = 3 :=
  C2_generator_invariant (fun _ => 0) (fun _ => []) 3 2 [1, 2, 3] rfl

/-- C6 counterexample: on the empty token sequence the vocabulary
construction of the source does not fail at all — `sorted(set([]))` yields
the empty vocabulary and `len(set([]))` yields `n_vocab = 0`.  No
`EmptyCorpusError` (or any error path) exists in the code. -/
theorem C6_counterexample : build_vocabulary [] = [] ∧ n_vocab [] = 0 :=
  ⟨rfl, rfl⟩

/-- C6 (amended): for the empty token sequence, vocabulary construction
succeeds and produces a vocabulary of size zero, and the subsequent
windowing loop silently produces zero training samples; no
`EmptyCorpusError` is raised. -/
theorem C6_empty_corpus :
    build_vocabulary [] = [] ∧ n_vocab [] = 0 ∧ make_training_samples [] 100 = [] := by
  refine ⟨rfl, rfl, ?_⟩
  rfl

/-- C8 counterexample: with an id stream admitting exactly three windows, the
last window (start position 2) is not a possible seed:
`numpy.random.randint(0, len(network_input)-1)` has an exclusive upper
bound, so the draw is confined to `{0, 1}`. -/
theorem C8_counterexample :
    2 ∉ seed_start_support [[10, 11], [11, 12], [12, 13]] := by
  decide

/-- C8 (amended): the seed window is drawn uniformly from the windows at
start positions `0 .. K-2` only: position `k` is a possible seed exactly
when `k + 1 < K`, so the last of the `K` available windows is never
selected (exclusive upper bound of `numpy.random.randint`). -/
theorem C8_seed_support (network_input : List (List Nat)) (k : Nat) :
    k ∈ seed_start_support network_input ↔ k + 1 < network_input.length := by
  unfold seed_start_support numpy_randint_support
  rw [List.mem_range'_1]
  omega

/-- C4: the three duration branches are tried in the order float literal,
then `a/b` rational, then the name fallback — but the name-fallback branch
of `set_duration` executes `duration.Duration(d)` with the module name
`duration` unimported, so it raises NameError before any duration-by-name
parse can happen: even the valid duration name `"half"` is a hard error,
contradicting the specified duration-by-name fallback. -/
theorem C4_duration_branches :
    set_duration_ql ['1', '.', '0'] = Except.ok 1 ∧
    set_duration_ql ['1', '/', '3'] = Except.ok (1 / 3) ∧
    set_duration_ql ['h', 'a', 'l', 'f'] = Except.error DurErr.nameError := by
  refine ⟨?_, ?_, rfl⟩
  · have h : set_duration_ql ['1', '.', '0'] =
        Except.ok ((natOfDigits ['1'] : ℚ) + (natOfDigits ['0'] : ℚ) / (10 : ℚ) ^ 1) := rfl
    have h1 : natOfDigits ['1'] = 1 := rfl
    have h0 : natOfDigits ['0'] = 0 := rfl
    rw [h, h1, h0]
    norm_num
  · have h : set_duration_ql ['1', '/', '3'] =
        Except.ok (((1 : Int) : ℚ) / ((3 : Int) : ℚ)) := rfl
    rw [h]
    norm_num

/-- C5: decode-time instrument recovery is not deterministic.  With the same
unresolvable instrument id `"999"` and the same two-element fallback
catalog, two different draws of the `randint` inside
`get_random_instrument` resolve two different instruments, so decoding the
same sequence twice need not resolve the same instruments (the
never-raises half of the claim does hold: `resolve_instrument` is
total). -/
theorem C5_random_fallback_nondeterministic :
    resolve_instrument (fun _ => none) [['P'], ['V']] 0 ['9', '9', '9'] = ['P'] ∧
    resolve_instrument (fun _ => none) [['P'], ['V']] 1 ['9', '9', '9'] = ['V'] ∧
    resolve_instrument (fun _ => none) [['P'], ['V']] 0 ['9', '9', '9'] ≠
      resolve_instrument (fun _ => none) [['P'], ['V']] 1 ['9', '9', '9'] := by
  decide

/-- C7: event extraction is not a deterministic function of the document.
For the same one-note flat document, two different draws of the `randint`
executed for every top-level element of `get_notes` produce two different
token streams, because the drawn instrument id is serialized into the
token of every part or note without a declared instrument. -/
theorem C7_extraction_nondeterministic :
    get_notes_doc [['0'], ['4', '0']] [0]
        [TopElement.flatNote ['C', '4'] ['1', '.', '0'] ['0', '.', '0']] ≠
      get_notes_doc [['0'], ['4', '0']] [1]
        [TopElement.flatNote ['C', '4'] ['1', '.', '0'] ['0', '.', '0']] := by
  decide

/-- C10 counterexample: a token whose whitespace split yields a single field
also has an empty pitch slice, yet it is not silently dropped — the field
unpacking `parts[-2]` raises IndexError, aborting `create_midi`. -/
theorem C10_counterexample :
    create_midi_step [] ['5'] = Except.error MidiErr.indexError := by
  rfl

/-- C10 (amended): every token whose whitespace split yields exactly two or
three fields (so the pitch slice between the instrument field and the final
duration/offset fields is empty, and the unpacking still succeeds) is
silently dropped: no note or chord is appended, no error is raised, and the
only effect is that its instrument id (the first field) is registered,
possibly producing a part containing no events. -/
theorem C10_empty_pitch_dropped (instruments : List (PyStr × List MidiElem)) (tok : PyStr)
    (h : (pySplit tok).length = 2 ∨ (pySplit tok).length = 3) :
    create_midi_step instruments tok =
      Except.ok (register_instrument instruments ((pySplit tok).getD 0 [])) := by
  have hlen2 : 2 ≤ (pySplit tok).length := by rcases h with h | h <;> omega
  have htake : ((pySplit tok).drop 1).take ((pySplit tok).length - 3) = [] := by
    rcases h with h | h <;> simp [h]
  unfold create_midi_step decode_token
  rw [if_pos hlen2, htake]
  simp

/-- Closed witness for C10 at the three-field token `"5 1 2"`. -/
theorem C10_empty_pitch_dropped_witness :
    (pySplit ['5', ' ', '1', ' ', '2']).length = 3 ∧
    create_midi_step [] ['5', ' ', '1', ' ', '2'] =
      Except.ok (register_instrument [] ['5']) := by
  refine ⟨by decide, ?_⟩
  have h := C10_empty_pitch_dropped [] ['5', ' ', '1', ' ', '2'] (Or.inr (by decide))
  have hD : (pySplit ['5', ' ', '1', ' ', '2']).getD 0 [] = ['5'] := by decide
  rw [h, hD]
